import Mathlib

/-!
Shallow embedding of the crawling core of the Sri-Lankan-Tourism-Culture-Assistance
repository, and proofs about it.

The embedded code lives in `Tourism&Culture_Assistance/scrape/`:
  * `scrape_srilanka.py`  — `normalize_url`, `allowed`, the image-download loop and
    the main `crawl` while-loop (namespace `SL` below);
  * `thecommonwanderer.py` — `normalize_link`, `extract_page` and its `crawl`
    while-loop (namespace `TCW` below);
  * `ella_travel_guide.py` — `TripAdvisorEllaScraper.get_page` (the retrying fetcher);
  * `sl_tourism_scrape.py` — `can_fetch_url`;
  * `scrape_ft_travel.py`  — `can_fetch`.

Python strings are embedded as `String` (URLs) or `List Char` (page text, where
slicing such as `text[:10000]` is `List.take`).  Network effects are embedded as
explicit oracles passed in an environment record: the HTTP responses a server
would give, the robots rules, the extracted content of each page.  Each crawl
loop is embedded as a step function on an explicit state plus a fuel-indexed
iteration of that step; the state carries a `fetchLog`/`processLog` history
field recording every page-fetch attempt, so that "fetched at most once" and
"at most N fetches" become statements about that log.
-/

/-! ### Model of `urllib.parse` (external standard library used by the scripts)

`urlsplit`, `urlunsplit` and `urljoin` below model the CPython `urllib.parse`
functions that `normalize_url` / `normalize_link` call: scheme recognition,
network-location splitting, query/fragment splitting, the `uses_relative` /
`uses_netloc` scheme tables and the RFC-3986-style segment merge (including
`.` and `..` resolution) performed by `urljoin`. -/

/-- Character-list test that `pre` is a leading run of `cs`; the character
semantics of Python `str.startswith`. -/
def charsStartWith : List Char → List Char → Bool
  | [], _ => true
  | _ :: _, [] => false
  | p :: ps, c :: cs => p == c && charsStartWith ps cs

/-- Python `s.startswith(pre)` on embedded strings. -/
def strStartsWith (s pre : String) : Bool :=
  charsStartWith pre.data s.data

/-- Python `s.split(c)` for a one-character separator, on character lists. -/
def splitOnChar (c : Char) : List Char → List (List Char)
  | [] => [[]]
  | x :: xs =>
    if x == c then [] :: splitOnChar c xs
    else
      match splitOnChar c xs with
      | [] => [[x]]
      | y :: ys => (x :: y) :: ys

/-- Join character lists with a one-character separator (Python `c.join`). -/
def intercalateChar (c : Char) : List (List Char) → List Char
  | [] => []
  | [x] => x
  | x :: xs => x ++ c :: intercalateChar c xs

/-- Characters allowed inside a URL scheme after the initial letter,
as accepted by CPython `urlsplit`. -/
def isSchemeChar (c : Char) : Bool :=
  c.isAlphanum || c == '+' || c == '-' || c == '.'

/-- Scan for `scheme:`; accumulates scheme characters until the first colon. -/
def schemeSplitAux : List Char → List Char → Option (List Char × List Char)
  | _, [] => none
  | acc, c :: rest =>
    if c == ':' then some (acc.reverse, rest)
    else if isSchemeChar c then schemeSplitAux (c :: acc) rest
    else none

/-- Split `s` into a lower-cased scheme and the remainder, when `s` starts with
a letter followed by scheme characters and a colon; `none` otherwise. -/
def splitScheme (s : String) : Option (String × String) :=
  match s.data with
  | [] => none
  | c :: _ =>
    if c.isAlpha then
      (schemeSplitAux [] s.data).map fun p => (String.mk (p.1.map Char.toLower), String.mk p.2)
    else none

/-- Split at the first occurrence of the character `sep`, like Python
`str.partition` (without returning the separator); when `sep` does not occur,
the second component is empty. -/
def partitionAt (sep : Char) (s : String) : String × String :=
  match splitOnChar sep s.data with
  | [] => (s, "")
  | x :: rest => (String.mk x, String.mk (intercalateChar sep rest))

/-- The five components produced by `urllib.parse.urlsplit`. -/
structure SplitUrl where
  scheme : String
  netloc : String
  path : String
  query : String
  fragment : String
deriving DecidableEq

/-- Model of `urllib.parse.urlsplit`: fragment after the first `#`, optional
scheme, network location after `//` up to the next `/` or `?`, then query
after the first `?`. -/
def urlsplit (s : String) : SplitUrl :=
  let pf := partitionAt '#' s
  let sr := match splitScheme pf.1 with
    | some p => p
    | none => ("", pf.1)
  let nl :=
    if strStartsWith sr.2 "//" then
      let r := (sr.2).data.drop 2
      let n := r.takeWhile (fun c => !(c == '/' || c == '?'))
      (String.mk n, String.mk (r.drop n.length))
    else ("", sr.2)
  let pq := partitionAt '?' nl.2
  { scheme := sr.1, netloc := nl.1, path := pq.1, query := pq.2, fragment := pf.2 }

/-- Model of `urllib.parse.urlunsplit`. -/
def urlunsplit (u : SplitUrl) : String :=
  let url0 :=
    if u.netloc != "" || strStartsWith u.path "//" then
      let p := if u.path != "" && !(strStartsWith u.path "/") then "/" ++ u.path else u.path
      "//" ++ u.netloc ++ p
    else u.path
  let url1 := if u.scheme != "" then u.scheme ++ ":" ++ url0 else url0
  let url2 := if u.query != "" then url1 ++ "?" ++ u.query else url1
  if u.fragment != "" then url2 ++ "#" ++ u.fragment else url2

/-- Schemes for which `urljoin` performs relative resolution (CPython table). -/
def uses_relative : List String :=
  ["", "ftp", "http", "gopher", "nntp", "imap", "wais", "file", "https", "shttp",
   "mms", "prospero", "rtsp", "rtspu", "sftp", "svn", "svn+ssh", "ws", "wss"]

/-- Schemes that use a network location (CPython table). -/
def uses_netloc : List String :=
  ["", "ftp", "http", "gopher", "nntp", "telnet", "imap", "wais", "file", "mms",
   "https", "shttp", "snews", "prospero", "rtsp", "rtspu", "rsync", "svn",
   "svn+ssh", "sftp", "nfs", "git", "git+ssh", "ws", "wss"]

/-- Resolve `.` and `..` segments, as in the final loop of CPython `urljoin`. -/
def mergeSegments : List String → List String → List String
  | acc, [] => acc
  | acc, seg :: rest =>
    if seg == ".." then mergeSegments acc.dropLast rest
    else if seg == "." then mergeSegments acc rest
    else mergeSegments (acc ++ [seg]) rest

/-- Drop empty segments strictly between the first and last element, modelling
the `segments[1:-1] = filter(None, segments[1:-1])` line of CPython `urljoin`. -/
def filterMiddle : List String → List String
  | [] => []
  | [x] => [x]
  | x :: rest => x :: (rest.dropLast.filter (fun s => s != "") ++ [rest.getLastD ""])

/-- Model of `urllib.parse.urljoin(base, url)`. -/
def urljoin (base url : String) : String :=
  if base == "" then url
  else if url == "" then base
  else
    let b := urlsplit base
    let u := urlsplit url
    let scheme := if u.scheme == "" then b.scheme else u.scheme
    if scheme != b.scheme || !(uses_relative.contains scheme) then url
    else if uses_netloc.contains scheme && u.netloc != "" then
      urlunsplit { scheme := scheme, netloc := u.netloc, path := u.path,
                   query := u.query, fragment := u.fragment }
    else
      let netloc := if uses_netloc.contains scheme then b.netloc else u.netloc
      if u.path == "" then
        let query := if u.query == "" then b.query else u.query
        urlunsplit { scheme := scheme, netloc := netloc, path := b.path,
                     query := query, fragment := u.fragment }
      else
        let baseParts0 := (splitOnChar '/' (b.path).data).map String.mk
        let baseParts := if baseParts0.getLastD "" != "" then baseParts0.dropLast else baseParts0
        let urlParts := (splitOnChar '/' (u.path).data).map String.mk
        let segments :=
          if strStartsWith u.path "/" then urlParts
          else filterMiddle (baseParts ++ urlParts)
        let resolved0 := mergeSegments [] segments
        let resolved :=
          if segments.getLastD "" == "." || segments.getLastD "" == ".." then resolved0 ++ [""]
          else resolved0
        let joined := String.mk (intercalateChar '/' (resolved.map String.data))
        let path := if joined == "" then "/" else joined
        urlunsplit { scheme := scheme, netloc := netloc, path := path,
                     query := u.query, fragment := u.fragment }

/-! ### URL normalizers -/

/-- The `link.split('#')[0]` fragment-stripping step of both normalizers. -/
def stripFragment (link : String) : String :=
  String.mk ((splitOnChar '#' link.data).headD [])

/-- Embedding of `normalize_url(base, link)` from `scrape_srilanka.py`:
`None` for a falsy link or a `javascript:`/`mailto:`/`tel:` link, otherwise
`urljoin(base, link.split('#')[0])`. -/
def normalize_url (base link : String) : Option String :=
  if link == "" then none
  else if strStartsWith link "javascript:" || strStartsWith link "mailto:" ||
      strStartsWith link "tel:" then
    none
  else some (urljoin base (stripFragment link))

/-- Embedding of `normalize_link(base, link)` from `thecommonwanderer.py`:
`None` for a falsy link or a `javascript:`/`mailto:` link (note: `tel:` is not
filtered here), otherwise `urljoin(base, link.split('#')[0])`. -/
def normalize_link (base link : String) : Option String :=
  if link == "" || strStartsWith link "javascript:" || strStartsWith link "mailto:" then none
  else some (urljoin base (stripFragment link))

/-! ### Robots gates -/

/-- Outcome of reading `/robots.txt` at startup: either the parser holds a rule
set (a predicate deciding `can_fetch` per URL), or the fetch/parse raised. -/
inductive RobotsState
  | loaded (rules : String → Bool)
  | failed

/-- Embedding of `allowed(url)` from `scrape_srilanka.py`.  When `rp.read()`
failed, `urllib.robotparser.RobotFileParser.can_fetch` returns `False`
(the parser was never read, `last_checked` is 0), and the scripts own
`except` branch also returns `False` ("default to False to be safe"), so the
failed state answers `false`. -/
def allowed : RobotsState → String → Bool
  | RobotsState.loaded rules, url => rules url
  | RobotsState.failed, _ => false

/-- Embedding of `can_fetch_url(url_to_check, ua)` from `sl_tourism_scrape.py`:
on a robots fetch/parse exception it warns and returns `True`. -/
def can_fetch_url : RobotsState → String → Bool
  | RobotsState.loaded rules, url => rules url
  | RobotsState.failed, _ => true

/-- Embedding of `can_fetch(url, ua)` from `scrape_ft_travel.py`:
on a robots fetch/parse exception it warns and returns `True`. -/
def can_fetch : RobotsState → String → Bool
  | RobotsState.loaded rules, url => rules url
  | RobotsState.failed, _ => true

/-! ### The retrying fetcher of `ella_travel_guide.py` -/

/-- What the server does on one HTTP request: a status code, a timeout, or a
connection error. -/
inductive HttpOutcome
  | status (code : Nat)
  | timeout
  | connError
deriving DecidableEq

/-- One pass of the `for attempt in range(max_retries)` loop of
`TripAdvisorEllaScraper.get_page`, indexed by the attempt number and the number
of loop iterations left.  Returns the successful status code (the code whose
response body is parsed into soup), or `none` after the loop is exhausted or a
404 is seen, together with the number of HTTP requests issued.  A 403 retries,
a 404 returns immediately, `raise_for_status` raises for any 4xx/5xx (caught
and retried), and timeouts/connection errors are caught and retried. -/
def getPageLoop (server : Nat → HttpOutcome) : Nat → Nat → Option Nat × Nat
  | _, 0 => (none, 0)
  | attempt, fuel + 1 =>
    match server attempt with
    | HttpOutcome.status code =>
      if code == 403 then
        let r := getPageLoop server (attempt + 1) fuel
        (r.1, r.2 + 1)
      else if code == 404 then (none, 1)
      else if 400 ≤ code ∧ code < 600 then
        let r := getPageLoop server (attempt + 1) fuel
        (r.1, r.2 + 1)
      else (some code, 1)
    | HttpOutcome.timeout =>
      let r := getPageLoop server (attempt + 1) fuel
      (r.1, r.2 + 1)
    | HttpOutcome.connError =>
      let r := getPageLoop server (attempt + 1) fuel
      (r.1, r.2 + 1)

/-- Embedding of `TripAdvisorEllaScraper.get_page(url, max_retries=3)`: runs the
attempt loop from attempt 0 with `max_retries` iterations available. -/
def get_page (server : Nat → HttpOutcome) (max_retries : Nat) : Option Nat × Nat :=
  getPageLoop server 0 max_retries

/-- An outcome the claim calls a retryable failure: 5xx, timeout, or connection
error. -/
def RetryableOutcome (o : HttpOutcome) : Prop :=
  o = HttpOutcome.timeout ∨ o = HttpOutcome.connError ∨
    ∃ c, o = HttpOutcome.status c ∧ 500 ≤ c ∧ c < 600

/-! ### The crawl loop of `scrape_srilanka.py` -/

namespace SL

/-- What the extractor sees in a successfully fetched page: the title, the
visible text produced by `extract_text`, the raw `img` sources chosen by
`find_all_images`, and the raw anchor hrefs seen by `find_all_links`. -/
structure Page where
  title : String
  text : List Char
  imgSrcs : List String
  hrefs : List String
deriving DecidableEq

/-- The JSON record written per page by `crawl` (line 155-162 of the script). -/
structure CrawlRecord where
  url : String
  title : String
  text_snippet : List Char
  all_images : List String
  downloaded_images : List (String × String)
  outbound_links_count : Nat
deriving DecidableEq

/-- The environment of the crawl: the robots state parsed at startup, the
`same_domain` predicate, the network (what `session.get` returns per page URL,
`none` meaning the request or `raise_for_status` raised), the image downloader
(`download_image`, `none` meaning the download failed and `None` was returned),
and the `MAX_PAGES` configuration constant (200 in the script). -/
structure Env where
  robots : RobotsState
  sameDomain : String → Bool
  fetchPage : String → Option Page
  downloadImage : String → Option String
  maxPages : Nat

/-- The mutable state of `crawl`: `visited`, the deque `q`, `pages_crawled`,
the records written to `results.jsonl` so far, and an instrumentation history
`fetchLog` listing each URL for which an HTTP GET of the page body was
attempted (one entry per `session.get(url)` call in the loop). -/
structure State where
  visited : List String
  queue : List String
  pagesCrawled : Nat
  output : List CrawlRecord
  fetchLog : List String
deriving DecidableEq

/-- Embedding of `find_all_links(soup, base)`: normalize each href, keep the
same-domain ones, as a set (modelled by deduplication). -/
def find_all_links (env : Env) (base : String) (hrefs : List String) : List String :=
  ((hrefs.filterMap (normalize_url base)).filter env.sameDomain).dedup

/-- Embedding of `find_all_images(soup, base)`: normalize each chosen `src`,
as a set (modelled by deduplication). -/
def find_all_images (base : String) (srcs : List String) : List String :=
  (srcs.filterMap (normalize_url base)).dedup

/-- Embedding of the image-download loop of `crawl` (lines 145-153): per image
URL, a robots check, then `download_image`; only successfully saved images are
appended to `downloaded` together with their path. -/
def downloadImages (env : Env) : List String → List (String × String)
  | [] => []
  | u :: rest =>
    if allowed env.robots u then
      match env.downloadImage u with
      | some path => (u, path) :: downloadImages env rest
      | none => downloadImages env rest
    else downloadImages env rest

/-- The record built at lines 155-162: note `text_snippet` is `text[:10000]`. -/
def mkRecord (url : String) (page : Page) (images : List String)
    (downloaded : List (String × String)) (links : List String) : CrawlRecord :=
  { url := url, title := page.title, text_snippet := page.text.take 10000,
    all_images := images, downloaded_images := downloaded,
    outbound_links_count := links.length }

/-- One iteration of the `while q and pages_crawled < MAX_PAGES` body:
pop, visited check, `same_domain` check, robots check (which marks the URL
visited and skips), then the fetch; a failed fetch marks visited and counts the
page; a successful fetch extracts, downloads images, writes the record,
enqueues the not-yet-visited links (before `visited.add(url)`, as in the
source), marks visited and counts the page. -/
def step (env : Env) (s : State) : State :=
  match s.queue with
  | [] => s
  | url :: rest =>
    if url ∈ s.visited then { s with queue := rest }
    else if env.sameDomain url = false then { s with queue := rest }
    else if allowed env.robots url = false then
      { s with queue := rest, visited := url :: s.visited }
    else
      match env.fetchPage url with
      | none =>
        { visited := url :: s.visited
          queue := rest
          pagesCrawled := s.pagesCrawled + 1
          output := s.output
          fetchLog := s.fetchLog ++ [url] }
      | some page =>
        let images := find_all_images url page.imgSrcs
        let links := find_all_links env url page.hrefs
        let downloaded := downloadImages env images
        let record := mkRecord url page images downloaded links
        let newLinks := links.filter (fun l => !(s.visited.contains l))
        { visited := url :: s.visited
          queue := rest ++ newLinks
          pagesCrawled := s.pagesCrawled + 1
          output := s.output ++ [record]
          fetchLog := s.fetchLog ++ [url] }

/-- The `while q and pages_crawled < MAX_PAGES` loop, indexed by fuel:
the real loop is this iteration run with enough fuel, and every property below
is proved for all fuel values. -/
def crawl (env : Env) : Nat → State → State
  | 0, s => s
  | fuel + 1, s =>
    if s.queue ≠ [] ∧ s.pagesCrawled < env.maxPages then crawl env fuel (step env s)
    else s

/-- The initial state of `crawl(start_url)`. -/
def init (start : String) : State :=
  { visited := [], queue := [start], pagesCrawled := 0, output := [], fetchLog := [] }

end SL

/-! ### The crawl loop of `thecommonwanderer.py` -/

namespace TCW

/-- What `extract_page` finds in a fetched page: title, the `time` datetime,
the visible text of the main region, and the raw `img` sources of the main
region (in document order, `src` or `data-src`). -/
structure Page where
  title : String
  publish_date : String
  text : List Char
  imgSrcs : List String
deriving DecidableEq

/-- The JSON record returned by `extract_page` and written per page. -/
structure PageRecord where
  url : String
  title : String
  publish_date : String
  text : List Char
  images : List String
deriving DecidableEq

/-- The crawl environment: robots rules (`rp.read()` at module top is not
guarded, so the script only runs with a loaded parser), `same_site`, the
network (`none` meaning `extract_page` raised), the hrefs served by the second
link-harvest GET of each page, and `MAX_PAGES` (100 in the script). -/
structure Env where
  allowedRules : String → Bool
  sameSite : String → Bool
  fetchPage : String → Option Page
  hrefs : String → List String
  maxPages : Nat

/-- The mutable state of `crawl`: `visited`, the deque `q`, the records
written to the output so far, and an instrumentation history `processLog`
listing each URL for which `extract_page` was attempted. -/
structure State where
  visited : List String
  queue : List String
  output : List PageRecord
  processLog : List String
deriving DecidableEq

/-- Embedding of `extract_page(url)` applied to a fetched page: note
`text` is `text[:20000]` and the main-region image sources are joined
against the page URL without fragment stripping. -/
def extract_page (url : String) (p : Page) : PageRecord :=
  { url := url, title := p.title, publish_date := p.publish_date,
    text := p.text.take 20000,
    images := p.imgSrcs.map (fun src => urljoin url src) }

/-- Python `set.add`: insert when absent. -/
def insertVisited (u : String) (v : List String) : List String :=
  if u ∈ v then v else u :: v

/-- One iteration of the `while q and len(visited) < MAX_PAGES` body: pop;
a visited / off-site / robots-disallowed URL is added to visited and skipped;
a raised `extract_page` adds to visited and skips; otherwise the record is
written, the URL is added to visited, and the normalized, same-site,
not-visited links of the page are enqueued (after `visited.add(url)`,
as in the source). -/
def step (env : Env) (s : State) : State :=
  match s.queue with
  | [] => s
  | url :: rest =>
    if url ∈ s.visited ∨ env.sameSite url = false ∨ env.allowedRules url = false then
      { s with queue := rest, visited := insertVisited url s.visited }
    else
      match env.fetchPage url with
      | none =>
        { s with
          queue := rest
          visited := insertVisited url s.visited
          processLog := s.processLog ++ [url] }
      | some page =>
        let record := extract_page url page
        let visited := insertVisited url s.visited
        let newLinks := ((env.hrefs url).filterMap (normalize_link url)).filter
          (fun l => !(visited.contains l) && env.sameSite l)
        { visited := visited
          queue := rest ++ newLinks
          output := s.output ++ [record]
          processLog := s.processLog ++ [url] }

/-- The `while q and len(visited) < MAX_PAGES` loop, indexed by fuel. -/
def crawl (env : Env) : Nat → State → State
  | 0, s => s
  | fuel + 1, s =>
    if s.queue ≠ [] ∧ s.visited.length < env.maxPages then crawl env fuel (step env s)
    else s

/-- The initial state of `crawl()` seeded with `START_PAGES`. -/
def init (starts : List String) : State :=
  { visited := [], queue := starts, output := [], processLog := [] }

end TCW

/-! ### Concrete environments used to instantiate the theorems below -/

/-- A network where every page fetch raises, with permissive robots rules. -/
def slEnvAllow : SL.Env :=
  { robots := RobotsState.loaded (fun _ => true)
    sameDomain := fun _ => true
    fetchPage := fun _ => none
    downloadImage := fun _ => none
    maxPages := 5 }

/-- A network where `extract_page` raises on every URL, with permissive rules. -/
def tcwEnvAllow : TCW.Env :=
  { allowedRules := fun _ => true
    sameSite := fun _ => true
    fetchPage := fun _ => none
    hrefs := fun _ => []
    maxPages := 5 }

/-- A two-character page with no images and no links. -/
def slPage : SL.Page :=
  { title := "t", text := ['a', 'b'], imgSrcs := [], hrefs := [] }

/-- A network serving `slPage` for every URL; image downloads always fail. -/
def slEnvPage : SL.Env :=
  { robots := RobotsState.loaded (fun _ => true)
    sameDomain := fun _ => true
    fetchPage := fun _ => some slPage
    downloadImage := fun _ => none
    maxPages := 5 }

/-- A one-character page with no images. -/
def tcwPage : TCW.Page :=
  { title := "t", publish_date := "", text := ['c'], imgSrcs := [] }

/-- A network serving `tcwPage` for every URL. -/
def tcwEnvPage : TCW.Env :=
  { allowedRules := fun _ => true
    sameSite := fun _ => true
    fetchPage := fun _ => some tcwPage
    hrefs := fun _ => []
    maxPages := 5 }

/-- The record `SL.crawl` writes for the seed page under `slEnvPage`. -/
def slRec : SL.CrawlRecord := SL.mkRecord "a" slPage [] [] []

/-- The record `TCW.crawl` writes for the seed page under `tcwEnvPage`. -/
def tcwRec : TCW.PageRecord := TCW.extract_page "b" tcwPage

/-- An environment whose robots rules deny every URL. -/
def slEnvDeny : SL.Env :=
  { robots := RobotsState.loaded (fun _ => false)
    sameDomain := fun _ => true
    fetchPage := fun _ => none
    downloadImage := fun _ => none
    maxPages := 5 }

/-- A page whose only link is the fragment-only href `#top`. -/
def slPageTop : SL.Page :=
  { title := "t", text := [], imgSrcs := [], hrefs := ["#top"] }

/-- A network serving `slPageTop` for every URL. -/
def slEnvTop : SL.Env :=
  { robots := RobotsState.loaded (fun _ => true)
    sameDomain := fun _ => true
    fetchPage := fun _ => some slPageTop
    downloadImage := fun _ => none
    maxPages := 5 }

/-! ### Invariants of the `scrape_srilanka.py` crawl loop -/

/-- The loop invariant of `SL.crawl`: the fetch history has no duplicates, every
fetched URL is visited and was allowed by the robots gate, the fetch count is
bounded by `pages_crawled`, the written records embed (in order) into the fetch
history, and every written record stores the 10000-character truncation of the
text of the page the network returned for its URL. -/
def SLGood (env : SL.Env) (s : SL.State) : Prop :=
  s.fetchLog.Nodup ∧
  (∀ u ∈ s.fetchLog, u ∈ s.visited) ∧
  (∀ u ∈ s.fetchLog, allowed env.robots u = true) ∧
  s.fetchLog.length ≤ s.pagesCrawled ∧
  (s.output.map SL.CrawlRecord.url).Sublist s.fetchLog ∧
  (∀ r ∈ s.output, ∃ p, env.fetchPage r.url = some p ∧ r.text_snippet = p.text.take 10000)

/-- The loop invariant of `TCW.crawl`: the processing history has no duplicates,
every processed URL is visited, was on-site and robots-allowed, the processing
count is bounded by the number of visited URLs, the written records embed into
the processing history, and every record stores the 20000-character truncation
of the text of the page the network returned for its URL. -/
def TGood (env : TCW.Env) (s : TCW.State) : Prop :=
  s.processLog.Nodup ∧
  (∀ u ∈ s.processLog, u ∈ s.visited) ∧
  (∀ u ∈ s.processLog, env.allowedRules u = true) ∧
  s.processLog.length ≤ s.visited.length ∧
  (s.output.map TCW.PageRecord.url).Sublist s.processLog ∧
  (∀ r ∈ s.output, ∃ p, env.fetchPage r.url = some p ∧ r.text = p.text.take 20000)

theorem sl_init_good (env : SL.Env) (start : String) : SLGood env (SL.init start) := by
  refine ⟨?_, ?_, ?_, ?_, ?_, ?_⟩ <;> simp [SL.init, SLGood]

theorem sl_step_good (env : SL.Env) (s : SL.State) (hg : SLGood env s) :
    SLGood env (SL.step env s) := by
  obtain ⟨h1, h2, h3, h4, h5, h6⟩ := hg
  cases hq : s.queue with
  | nil => simp only [SL.step, hq]; exact ⟨h1, h2, h3, h4, h5, h6⟩
  | cons url rest =>
    simp only [SL.step, hq]
    by_cases hv : url ∈ s.visited
    · rw [if_pos hv]
      exact ⟨h1, h2, h3, h4, h5, h6⟩
    · rw [if_neg hv]
      by_cases hd : env.sameDomain url = false
      · rw [if_pos hd]
        exact ⟨h1, h2, h3, h4, h5, h6⟩
      · rw [if_neg hd]
        by_cases ha : allowed env.robots url = false
        · rw [if_pos ha]
          exact ⟨h1, fun u hu => List.mem_cons_of_mem _ (h2 u hu), h3, h4, h5, h6⟩
        · rw [if_neg ha]
          have ha' : allowed env.robots url = true := by
            cases h : allowed env.robots url
            · exact absurd h ha
            · rfl
          have hnotlog : url ∉ s.fetchLog := fun hm => hv (h2 url hm)
          have hnodup : (s.fetchLog ++ [url]).Nodup := by
            simp [List.nodup_append, h1, hnotlog]
          have hmemvis : ∀ u ∈ s.fetchLog ++ [url], u ∈ url :: s.visited := by
            intro u hu
            rcases List.mem_append.mp hu with h | h
            · exact List.mem_cons_of_mem _ (h2 u h)
            · simp only [List.mem_singleton] at h
              subst h
              exact List.mem_cons_self _ _
          have hmemallow : ∀ u ∈ s.fetchLog ++ [url], allowed env.robots u = true := by
            intro u hu
            rcases List.mem_append.mp hu with h | h
            · exact h3 u h
            · simp only [List.mem_singleton] at h
              subst h
              exact ha'
          cases hf : env.fetchPage url with
          | none =>
            refine ⟨hnodup, hmemvis, hmemallow, ?_, ?_, h6⟩
            · simp only [List.length_append, List.length_singleton]
              omega
            · exact h5.trans (List.sublist_append_left s.fetchLog [url])
          | some page =>
            refine ⟨hnodup, hmemvis, hmemallow, ?_, ?_, ?_⟩
            · simp only [List.length_append, List.length_singleton]
              omega
            · simp only [List.map_append, List.map_cons, List.map_nil]
              exact List.Sublist.append h5 (List.Sublist.refl _)
            · intro r hr
              rcases List.mem_append.mp hr with h | h
              · exact h6 r h
              · simp only [List.mem_singleton] at h
                subst h
                exact ⟨page, hf, rfl⟩

theorem sl_crawl_good (env : SL.Env) (fuel : Nat) (s : SL.State) (hg : SLGood env s) :
    SLGood env (SL.crawl env fuel s) := by
  induction fuel generalizing s with
  | zero => simpa only [SL.crawl] using hg
  | succ n ih =>
    simp only [SL.crawl]
    split
    · exact ih _ (sl_step_good env s hg)
    · exact hg

theorem sl_step_pages (env : SL.Env) (s : SL.State) :
    (SL.step env s).pagesCrawled ≤ s.pagesCrawled + 1 := by
  cases hq : s.queue with
  | nil => simp [SL.step, hq]
  | cons url rest =>
    simp only [SL.step, hq]
    split
    · simp
    · split
      · simp
      · split
        · simp
        · cases env.fetchPage url <;> simp

theorem sl_crawl_pages (env : SL.Env) (fuel : Nat) (s : SL.State)
    (h : s.pagesCrawled ≤ env.maxPages) :
    (SL.crawl env fuel s).pagesCrawled ≤ env.maxPages := by
  induction fuel generalizing s with
  | zero => simpa only [SL.crawl] using h
  | succ n ih =>
    simp only [SL.crawl]
    split
    · rename_i hcond
      apply ih
      have hp := sl_step_pages env s
      have hlt := hcond.2
      omega
    · exact h

/-! ### Invariants of the `thecommonwanderer.py` crawl loop -/

theorem insertVisited_mem_of_mem (u x : String) (v : List String) (h : x ∈ v) :
    x ∈ TCW.insertVisited u v := by
  unfold TCW.insertVisited
  split
  · exact h
  · exact List.mem_cons_of_mem _ h

theorem insertVisited_mem_self (u : String) (v : List String) :
    u ∈ TCW.insertVisited u v := by
  unfold TCW.insertVisited
  split
  · assumption
  · exact List.mem_cons_self _ _

theorem insertVisited_length_le (u : String) (v : List String) :
    (TCW.insertVisited u v).length ≤ v.length + 1 := by
  unfold TCW.insertVisited
  split <;> simp

theorem insertVisited_length_ge (u : String) (v : List String) :
    v.length ≤ (TCW.insertVisited u v).length := by
  unfold TCW.insertVisited
  split <;> simp

theorem insertVisited_length_not_mem (u : String) (v : List String) (h : u ∉ v) :
    (TCW.insertVisited u v).length = v.length + 1 := by
  unfold TCW.insertVisited
  rw [if_neg h]
  simp

theorem tcw_init_good (env : TCW.Env) (starts : List String) : TGood env (TCW.init starts) := by
  refine ⟨?_, ?_, ?_, ?_, ?_, ?_⟩ <;> simp [TCW.init, TGood]

theorem tcw_step_good (env : TCW.Env) (s : TCW.State) (hg : TGood env s) :
    TGood env (TCW.step env s) := by
  obtain ⟨h1, h2, h3, h4, h5, h6⟩ := hg
  cases hq : s.queue with
  | nil => simp only [TCW.step, hq]; exact ⟨h1, h2, h3, h4, h5, h6⟩
  | cons url rest =>
    simp only [TCW.step, hq]
    by_cases hskip : url ∈ s.visited ∨ env.sameSite url = false ∨ env.allowedRules url = false
    · rw [if_pos hskip]
      refine ⟨h1, fun u hu => insertVisited_mem_of_mem url u _ (h2 u hu), h3, ?_, h5, h6⟩
      exact h4.trans (insertVisited_length_ge url s.visited)
    · rw [if_neg hskip]
      push_neg at hskip
      obtain ⟨hv, hd, ha⟩ := hskip
      have ha' : env.allowedRules url = true := by
        cases h : env.allowedRules url
        · exact absurd h ha
        · rfl
      have hnotlog : url ∉ s.processLog := fun hm => hv (h2 url hm)
      have hnodup : (s.processLog ++ [url]).Nodup := by
        simp [List.nodup_append, h1, hnotlog]
      have hmemvis : ∀ u ∈ s.processLog ++ [url], u ∈ TCW.insertVisited url s.visited := by
        intro u hu
        rcases List.mem_append.mp hu with h | h
        · exact insertVisited_mem_of_mem url u _ (h2 u h)
        · simp only [List.mem_singleton] at h
          subst h
          exact insertVisited_mem_self _ _
      have hmemallow : ∀ u ∈ s.processLog ++ [url], env.allowedRules u = true := by
        intro u hu
        rcases List.mem_append.mp hu with h | h
        · exact h3 u h
        · simp only [List.mem_singleton] at h
          subst h
          exact ha'
      have hlen : (s.processLog ++ [url]).length ≤ (TCW.insertVisited url s.visited).length := by
        rw [insertVisited_length_not_mem url s.visited hv]
        simp only [List.length_append, List.length_singleton]
        omega
      cases hf : env.fetchPage url with
      | none =>
        refine ⟨hnodup, hmemvis, hmemallow, hlen, ?_, h6⟩
        exact h5.trans (List.sublist_append_left s.processLog [url])
      | some page =>
        refine ⟨hnodup, hmemvis, hmemallow, hlen, ?_, ?_⟩
        · simp only [List.map_append, List.map_cons, List.map_nil]
          exact List.Sublist.append h5 (List.Sublist.refl _)
        · intro r hr
          rcases List.mem_append.mp hr with h | h
          · exact h6 r h
          · simp only [List.mem_singleton] at h
            subst h
            exact ⟨page, hf, rfl⟩

theorem tcw_crawl_good (env : TCW.Env) (fuel : Nat) (s : TCW.State) (hg : TGood env s) :
    TGood env (TCW.crawl env fuel s) := by
  induction fuel generalizing s with
  | zero => simpa only [TCW.crawl] using hg
  | succ n ih =>
    simp only [TCW.crawl]
    split
    · exact ih _ (tcw_step_good env s hg)
    · exact hg

theorem tcw_step_visited (env : TCW.Env) (s : TCW.State) :
    (TCW.step env s).visited.length ≤ s.visited.length + 1 := by
  cases hq : s.queue with
  | nil => simp [TCW.step, hq]
  | cons url rest =>
    simp only [TCW.step, hq]
    split
    · exact insertVisited_length_le url s.visited
    · cases env.fetchPage url <;> exact insertVisited_length_le url s.visited

theorem tcw_crawl_visited (env : TCW.Env) (fuel : Nat) (s : TCW.State)
    (h : s.visited.length ≤ env.maxPages) :
    (TCW.crawl env fuel s).visited.length ≤ env.maxPages := by
  induction fuel generalizing s with
  | zero => simpa only [TCW.crawl] using h
  | succ n ih =>
    simp only [TCW.crawl]
    split
    · rename_i hcond
      apply ih
      have hp := tcw_step_visited env s
      have hlt := hcond.2
      omega
    · exact h

/-! ### Helper lemmas for the claim theorems -/

theorem urljoin_empty_ref (base : String) : urljoin base "" = base := by
  unfold urljoin
  split_ifs with h1 h2
  · have : base = "" := by simpa using h1
    rw [this]
  · rfl
  · simp at h2

theorem normalize_url_fragment_only (base : String) :
    normalize_url base "#top" = some base := by
  unfold normalize_url
  rw [if_neg (by decide), if_neg (by decide)]
  have h : stripFragment "#top" = "" := by decide
  rw [h, urljoin_empty_ref]

theorem downloadImages_failed_not_mem (env : SL.Env) (u : String)
    (hu : env.downloadImage u = none) (imgs : List String) :
    u ∉ (SL.downloadImages env imgs).map Prod.fst := by
  induction imgs with
  | nil => simp [SL.downloadImages]
  | cons v rest ih =>
    simp only [SL.downloadImages]
    split
    · cases hdl : env.downloadImage v with
      | none => exact ih
      | some p =>
        simp only [List.map_cons, List.mem_cons]
        rintro (h | h)
        · subst h
          rw [hu] at hdl
          cases hdl
        · exact ih h
    · exact ih

theorem downloadImages_filter_comm (env : SL.Env) (u : String) (imgs : List String) :
    SL.downloadImages env (imgs.filter (fun v => v != u)) =
      (SL.downloadImages env imgs).filter (fun p => p.1 != u) := by
  induction imgs with
  | nil => simp [SL.downloadImages]
  | cons v rest ih =>
    by_cases hvu : v = u
    · subst hvu
      rw [List.filter_cons_of_neg (by simp)]
      rw [ih]
      simp only [SL.downloadImages]
      split
      · cases hdl : env.downloadImage v with
        | none => rfl
        | some p => rw [List.filter_cons_of_neg (by simp)]
      · rfl
    · rw [List.filter_cons_of_pos (by simp [hvu])]
      simp only [SL.downloadImages]
      split
      · cases hdl : env.downloadImage v with
        | none => exact ih
        | some p =>
          rw [List.filter_cons_of_pos (by simp [hvu])]
          rw [ih]
      · exact ih

theorem getPageLoop_all_retryable (server : Nat → HttpOutcome) (fuel : Nat) :
    ∀ attempt : Nat,
      (∀ i, attempt ≤ i → i < attempt + fuel → RetryableOutcome (server i)) →
      getPageLoop server attempt fuel = (none, fuel) := by
  induction fuel with
  | zero => intro attempt _; rfl
  | succ n ih =>
    intro attempt h
    have h0 := h attempt (Nat.le_refl _) (by omega)
    have hrest : ∀ i, attempt + 1 ≤ i → i < attempt + 1 + n → RetryableOutcome (server i) := by
      intro i hi1 hi2
      exact h i (by omega) (by omega)
    have hrec := ih (attempt + 1) hrest
    rcases h0 with ht | hc | ⟨c, hc, h5, h6⟩
    · simp only [getPageLoop, ht, hrec]
    · simp only [getPageLoop, hc, hrec]
    · simp only [getPageLoop, hc]
      rw [if_neg (by simp; omega), if_neg (by simp; omega), if_pos ⟨by omega, h6⟩, hrec]

/-! ### Claim theorems -/

/-- C1: Deduplication of the crawl frontier.  For every environment (every page
graph, including pages whose hrefs repeat a URL or differ only in their
fragment, which normalize to the same string before being pushed), every fuel
and every seed, each normalized URL is fetched-and-recorded at most once over
the whole crawl of `scrape_srilanka.py` and of `thecommonwanderer.py`: the
fetch history and the written record URLs contain no duplicates.  A push of an
already-visited URL is a no-op by the `link not in visited` filter in the step,
and queue duplicates are discarded by the pop-side visited check. -/
theorem frontier_dedup (envS : SL.Env) (fuelS : Nat) (start : String)
    (envT : TCW.Env) (fuelT : Nat) (starts : List String) :
    (SL.crawl envS fuelS (SL.init start)).fetchLog.Nodup ∧
    ((SL.crawl envS fuelS (SL.init start)).output.map SL.CrawlRecord.url).Nodup ∧
    (TCW.crawl envT fuelT (TCW.init starts)).processLog.Nodup ∧
    ((TCW.crawl envT fuelT (TCW.init starts)).output.map TCW.PageRecord.url).Nodup := by
  have hS := sl_crawl_good envS fuelS (SL.init start) (sl_init_good envS start)
  have hT := tcw_crawl_good envT fuelT (TCW.init starts) (tcw_init_good envT starts)
  exact ⟨hS.1, hS.1.sublist hS.2.2.2.2.1, hT.1, hT.1.sublist hT.2.2.2.2.1⟩

/-- C2: Page budget.  For every configured `MAX_PAGES` value (the `maxPages`
field of the environment), whatever the page graph and however much fuel the
loop is given, the number of page-fetch attempts performed by the crawl loop of
`scrape_srilanka.py` (guarded by `pages_crawled < MAX_PAGES`) and of
`thecommonwanderer.py` (guarded by `len(visited) < MAX_PAGES`) is at most
`MAX_PAGES`, even when the queue still holds unvisited URLs. -/
theorem page_budget (envS : SL.Env) (fuelS : Nat) (start : String)
    (envT : TCW.Env) (fuelT : Nat) (starts : List String) :
    (SL.crawl envS fuelS (SL.init start)).fetchLog.length ≤ envS.maxPages ∧
    (TCW.crawl envT fuelT (TCW.init starts)).processLog.length ≤ envT.maxPages := by
  have hS := sl_crawl_good envS fuelS (SL.init start) (sl_init_good envS start)
  have hpg := sl_crawl_pages envS fuelS (SL.init start) (Nat.zero_le _)
  have hT := tcw_crawl_good envT fuelT (TCW.init starts) (tcw_init_good envT starts)
  have hvi := tcw_crawl_visited envT fuelT (TCW.init starts) (Nat.zero_le _)
  exact ⟨le_trans hS.2.2.2.1 hpg, le_trans hT.2.2.2.1 hvi⟩

/-- C5: Robots compliance.  In every state reachable by the crawl loops from
their initial state, a URL that the robots gate does not permit is never passed
to the page fetcher: every URL in the fetch history of `scrape_srilanka.py`
satisfies `allowed`, and every URL in the processing history of
`thecommonwanderer.py` satisfies its robots rules. -/
theorem robots_compliance (envS : SL.Env) (fuelS : Nat) (start : String)
    (envT : TCW.Env) (fuelT : Nat) (starts : List String) (u v : String)
    (hu : u ∈ (SL.crawl envS fuelS (SL.init start)).fetchLog)
    (hv : v ∈ (TCW.crawl envT fuelT (TCW.init starts)).processLog) :
    allowed envS.robots u = true ∧ envT.allowedRules v = true := by
  have hS := sl_crawl_good envS fuelS (SL.init start) (sl_init_good envS start)
  have hT := tcw_crawl_good envT fuelT (TCW.init starts) (tcw_init_good envT starts)
  exact ⟨hS.2.2.1 u hu, hT.2.2.1 v hv⟩

theorem robots_compliance_witness :
    allowed slEnvAllow.robots "a" = true ∧ tcwEnvAllow.allowedRules "b" = true :=
  robots_compliance slEnvAllow 1 "a" tcwEnvAllow 1 ["b"] "a" "b" (by decide) (by decide)

/-- C9: Truncated text bodies.  Every record written by the crawl loop of
`scrape_srilanka.py` carries in `text_snippet` exactly the first 10000
characters of the extracted text of the page fetched for its URL (hence at most
10000 characters, and a leading run of that text), and every record written by
`thecommonwanderer.py` carries in `text` the first 20000 characters of its
page's extracted text. -/
theorem record_text_truncated (envS : SL.Env) (fuelS : Nat) (start : String)
    (envT : TCW.Env) (fuelT : Nat) (starts : List String)
    (r : SL.CrawlRecord) (t : TCW.PageRecord)
    (hr : r ∈ (SL.crawl envS fuelS (SL.init start)).output)
    (ht : t ∈ (TCW.crawl envT fuelT (TCW.init starts)).output) :
    (∃ p, envS.fetchPage r.url = some p ∧ r.text_snippet = p.text.take 10000 ∧
      r.text_snippet.length ≤ 10000 ∧ r.text_snippet <+: p.text) ∧
    (∃ p, envT.fetchPage t.url = some p ∧ t.text = p.text.take 20000 ∧
      t.text.length ≤ 20000 ∧ t.text <+: p.text) := by
  have hS := sl_crawl_good envS fuelS (SL.init start) (sl_init_good envS start)
  have hT := tcw_crawl_good envT fuelT (TCW.init starts) (tcw_init_good envT starts)
  obtain ⟨p, hp, he⟩ := hS.2.2.2.2.2 r hr
  obtain ⟨q, hq, he2⟩ := hT.2.2.2.2.2 t ht
  refine ⟨⟨p, hp, he, ?_, ?_⟩, ⟨q, hq, he2, ?_, ?_⟩⟩
  · rw [he, List.length_take]
    exact min_le_left _ _
  · rw [he]
    exact List.take_prefix _ _
  · rw [he2, List.length_take]
    exact min_le_left _ _
  · rw [he2]
    exact List.take_prefix _ _

theorem record_text_truncated_witness :
    (∃ p, slEnvPage.fetchPage slRec.url = some p ∧ slRec.text_snippet = p.text.take 10000 ∧
      slRec.text_snippet.length ≤ 10000 ∧ slRec.text_snippet <+: p.text) ∧
    (∃ p, tcwEnvPage.fetchPage tcwRec.url = some p ∧ tcwRec.text = p.text.take 20000 ∧
      tcwRec.text.length ≤ 20000 ∧ tcwRec.text <+: p.text) :=
  record_text_truncated slEnvPage 1 "a" tcwEnvPage 1 ["b"] slRec tcwRec (by decide) (by decide)

/-- C3 counterexample: the claim says a URL whose server returns a retryable
failure on every attempt is requested exactly `R + 1` times with `R` defaulting
to 3, i.e. 4 requests.  `get_page` with its default `max_retries = 3` against a
server answering 500 on every attempt issues 3 requests, not 4. -/
theorem get_page_counterexample :
    ¬ ((get_page (fun _ => HttpOutcome.status 500) 3).2 = 3 + 1) := by decide

/-- C3 amended: for a URL whose server returns a retryable failure (5xx,
timeout, connection error) on every attempt, `get_page` issues exactly
`max_retries` HTTP requests (one initial attempt plus `max_retries - 1`
retries, `max_retries` defaulting to 3) and gives up returning `None`. -/
theorem get_page_retry_bound (server : Nat → HttpOutcome) (R : Nat)
    (h : ∀ i, i < R → RetryableOutcome (server i)) :
    get_page server R = (none, R) :=
  getPageLoop_all_retryable server R 0 (fun i _ hi => h i (by omega))

theorem get_page_retry_bound_witness :
    get_page (fun _ => HttpOutcome.status 500) 3 = (none, 3) :=
  get_page_retry_bound (fun _ => HttpOutcome.status 500) 3
    (fun i _ => Or.inr (Or.inr ⟨500, rfl, by omega, by omega⟩))

/-- C4 counterexample: the claim says every robots gate answers permit after
the robots fetch/parse has failed; but `allowed` in `scrape_srilanka.py`
answers deny (`False`) for every URL in the failed state. -/
theorem robots_failure_counterexample :
    allowed RobotsState.failed "https://www.srilanka.travel/" = false := rfl

/-- C4 amended: after the robots.txt fetch or parse has failed,
`can_fetch_url` of `sl_tourism_scrape.py` and `can_fetch` of
`scrape_ft_travel.py` default to permit for every URL, while `allowed` of
`scrape_srilanka.py` defaults to deny for every URL. -/
theorem robots_failure_defaults (u : String) :
    can_fetch_url RobotsState.failed u = true ∧
    can_fetch RobotsState.failed u = true ∧
    allowed RobotsState.failed u = false :=
  ⟨rfl, rfl, rfl⟩

/-- C6 counterexample: the claim says the normalizer returns absent exactly for
non-crawlable schemes (`javascript:`, `mailto:`, `tel:`) or malformed hrefs;
but `normalize_link` of `thecommonwanderer.py` does not filter `tel:` and
returns the `tel:` URL itself. -/
theorem normalize_tel_counterexample :
    strStartsWith "tel:+94112223344" "tel:" = true ∧
    normalize_link "https://www.thecommonwanderer.com/sri-lanka" "tel:+94112223344" =
      some "tel:+94112223344" := by
  exact ⟨rfl, by decide⟩

/-- C6 amended: both normalizers are pure functions that either return absent
or return `urljoin` of the base with the fragment-stripped href; `normalize_url`
of `scrape_srilanka.py` returns absent exactly when the href is empty or starts
with `javascript:`, `mailto:` or `tel:`, and `normalize_link` of
`thecommonwanderer.py` returns absent exactly when the href is empty or starts
with `javascript:` or `mailto:` (so `tel:` hrefs pass through, and no malformed
detection exists in either). -/
theorem normalize_absent_iff (base link : String) :
    (normalize_url base link = none ↔
      (link = "" ∨ strStartsWith link "javascript:" = true ∨
        strStartsWith link "mailto:" = true ∨ strStartsWith link "tel:" = true)) ∧
    (normalize_url base link = none ∨
      normalize_url base link = some (urljoin base (stripFragment link))) ∧
    (normalize_link base link = none ↔
      (link = "" ∨ strStartsWith link "javascript:" = true ∨
        strStartsWith link "mailto:" = true)) ∧
    (normalize_link base link = none ∨
      normalize_link base link = some (urljoin base (stripFragment link))) := by
  refine ⟨?_, ?_, ?_, ?_⟩
  · unfold normalize_url
    split_ifs with h1 h2
    · simp only [beq_iff_eq] at h1
      simp [h1]
    · simp only [Bool.or_eq_true] at h2
      simp only [beq_iff_eq] at h1
      constructor
      · intro _
        tauto
      · intro _
        rfl
    · simp only [Bool.or_eq_true, not_or] at h2
      simp only [beq_iff_eq] at h1
      constructor
      · intro h
        cases h
      · intro h
        exfalso
        tauto
  · unfold normalize_url
    split_ifs <;> simp
  · unfold normalize_link
    split_ifs with h1
    · simp only [Bool.or_eq_true, beq_iff_eq] at h1
      constructor
      · intro _
        tauto
      · intro _
        rfl
    · simp only [Bool.or_eq_true, beq_iff_eq, not_or] at h1
      constructor
      · intro h
        cases h
      · intro h
        exfalso
        tauto
  · unfold normalize_link
    split_ifs <;> simp

/-- C7: Image failure isolation.  When a page is processed by the crawl of
`scrape_srilanka.py`, the failure of any individual image download never aborts
or suppresses the page's record: the record is appended to the output whatever
the download oracle does, a failed image URL never appears among the
downloaded-image pairs (so it keeps no local path), and removing one image URL
from the page's list changes nothing about the downloads of the other URLs. -/
theorem image_failure_isolated (env : SL.Env) (s : SL.State) (url : String)
    (rest : List String) (page : SL.Page) (u : String)
    (hq : s.queue = url :: rest) (hv : url ∉ s.visited)
    (hd : env.sameDomain url = true) (ha : allowed env.robots url = true)
    (hf : env.fetchPage url = some page) (hu : env.downloadImage u = none) :
    (SL.step env s).output = s.output ++
      [SL.mkRecord url page (SL.find_all_images url page.imgSrcs)
        (SL.downloadImages env (SL.find_all_images url page.imgSrcs))
        (SL.find_all_links env url page.hrefs)] ∧
    u ∉ (SL.downloadImages env (SL.find_all_images url page.imgSrcs)).map Prod.fst ∧
    (∀ imgs : List String,
      SL.downloadImages env (imgs.filter (fun v => v != u)) =
        (SL.downloadImages env imgs).filter (fun p => p.1 != u)) := by
  refine ⟨?_, downloadImages_failed_not_mem env u hu _,
    fun imgs => downloadImages_filter_comm env u imgs⟩
  simp only [SL.step, hq]
  rw [if_neg hv, if_neg (by simp [hd]), if_neg (by simp [ha]), hf]

theorem image_failure_isolated_witness :
    (SL.step slEnvPage (SL.init "a")).output = (SL.init "a").output ++
      [SL.mkRecord "a" slPage (SL.find_all_images "a" slPage.imgSrcs)
        (SL.downloadImages slEnvPage (SL.find_all_images "a" slPage.imgSrcs))
        (SL.find_all_links slEnvPage "a" slPage.hrefs)] ∧
    "x" ∉ (SL.downloadImages slEnvPage (SL.find_all_images "a" slPage.imgSrcs)).map Prod.fst ∧
    (∀ imgs : List String,
      SL.downloadImages slEnvPage (imgs.filter (fun v => v != "x")) =
        (SL.downloadImages slEnvPage imgs).filter (fun p => p.1 != "x")) :=
  image_failure_isolated slEnvPage (SL.init "a") "a" [] slPage "x"
    rfl (by decide) rfl rfl rfl rfl

/-- C8: A fragment-only href such as `#top` is not rejected by `normalize_url`:
stripping the fragment leaves the empty string, which `urljoin` resolves to the
base URL itself, so the normalizer returns the current page's own URL and the
crawl step re-enqueues the current page (the enqueue happens before
`visited.add(url)`); this is harmless only because the pop-side visited check
deduplicates later (the C1 theorem). -/
theorem fragment_only_reenqueued (env : SL.Env) (s : SL.State) (url : String)
    (rest : List String) (page : SL.Page)
    (hq : s.queue = url :: rest) (hv : url ∉ s.visited) (hd : env.sameDomain url = true)
    (ha : allowed env.robots url = true) (hf : env.fetchPage url = some page)
    (hh : page.hrefs = ["#top"]) :
    normalize_url url "#top" = some url ∧ url ∈ (SL.step env s).queue := by
  refine ⟨normalize_url_fragment_only url, ?_⟩
  simp only [SL.step, hq]
  rw [if_neg hv, if_neg (by simp [hd]), if_neg (by simp [ha]), hf]
  have hlinks : SL.find_all_links env url page.hrefs = [url] := by
    rw [hh]
    unfold SL.find_all_links
    simp [normalize_url_fragment_only url, hd]
  show url ∈ rest ++ (SL.find_all_links env url page.hrefs).filter
    (fun l => !(s.visited.contains l))
  rw [hlinks]
  refine List.mem_append_right _ (List.mem_filter.mpr ⟨List.mem_singleton_self url, ?_⟩)
  simp [hv]

theorem fragment_only_reenqueued_witness :
    normalize_url "a" "#top" = some "a" ∧ "a" ∈ (SL.step slEnvTop (SL.init "a")).queue :=
  fragment_only_reenqueued slEnvTop (SL.init "a") "a" [] slPageTop
    rfl (by decide) rfl rfl rfl rfl

/-- C10: Frame effect of a robots denial.  When the popped URL is new and
on-domain but the robots gate denies it, the crawl step of `scrape_srilanka.py`
only adds the URL to the visited set and drops it from the queue; the page
counter, the output stream and the fetch history are unchanged, so a denied URL
consumes none of the `MAX_PAGES` budget and produces no record. -/
theorem robots_denied_frame (env : SL.Env) (s : SL.State) (url : String) (rest : List String)
    (hq : s.queue = url :: rest) (hv : url ∉ s.visited)
    (hd : env.sameDomain url = true) (ha : allowed env.robots url = false) :
    SL.step env s = { s with queue := rest, visited := url :: s.visited } := by
  simp only [SL.step, hq]
  rw [if_neg hv, if_neg (by simp [hd]), if_pos ha]

theorem robots_denied_frame_witness :
    SL.step slEnvDeny (SL.init "a") =
      { SL.init "a" with queue := [], visited := ["a"] } :=
  robots_denied_frame slEnvDeny (SL.init "a") "a" [] rfl (by decide) rfl rfl
